import Mathlib

/-!
# Verification of spirit's online-copy engine against its specification

This file gives a shallow embedding, in Lean 4, of the parts of the
block/spirit source that the specification's claims are about:

* `pkg/dbconn/dbconn.go` — `RetryableTransaction` and its `SHOW WARNINGS`
  filtering (warnings 1062 / 3170).
* `pkg/repl/subscription.go` — subscriptions, the delta map / delta queue,
  `keyHasChanged`, `flushDeltaQueue`, `flushDeltaMap`.
* `pkg/migration/runner.go` — checkpointing (`createCheckpointTable`,
  `dumpCheckpoint`, `resumeFromCheckpoint`), `setup`, `prepareForCutover`,
  `setCurrentState`.
* the cutover `algorithmRenameUnderLock` and `pkg/dbconn/tablelock.go`.
* `pkg/utils` — `HashKey` / `UnhashKey`.

Strings manipulated character-by-character (keys, separators, SQL literals)
are modelled as `List Char` (`Str` below); ordinary opaque identifiers
(binlog file names, SQL fragments compared only for equality) use `String`.
Fallible or effectful steps (executing SQL, acquiring locks) are modelled
with explicit oracle parameters and `Option`/sum results.
-/

namespace Spirit

/-- Character strings handled structurally (split / join / escape). -/
abbrev Str := List Char

/-! ## dbconn.go: RetryableTransaction warning handling -/

/-- One row of `SHOW WARNINGS`: level, code, message
(`dbconn.go`, `RetryableTransaction`). -/
structure Warning where
  level : String
  code : String
  message : String
  deriving DecidableEq, Repr

/-- Outcome of the per-statement warning scan inside a transaction attempt:
either the transaction proceeds, or it is rolled back and the error
`unsafe warning migrating chunk` is returned. -/
inductive WarnOutcome where
  | proceed : WarnOutcome
  | abort (message : String) : WarnOutcome
  deriving DecidableEq, Repr

/-- The `SHOW WARNINGS` scan of `RetryableTransaction` (`dbconn.go` lines
162-184): warning code `1062` is skipped only when `ignoreDupKeyWarnings`
is set, code `3170` (range-optimizer capacity) is always skipped, and any
other warning rolls the transaction back with an error. -/
def processWarnings (ignoreDupKeyWarnings : Bool) : List Warning → WarnOutcome
  | [] => .proceed
  | w :: rest =>
    if w.code == "1062" && ignoreDupKeyWarnings then
      processWarnings ignoreDupKeyWarnings rest
    else if w.code == "3170" then
      processWarnings ignoreDupKeyWarnings rest
    else
      .abort w.message

/-- A statement execution inside one transaction attempt, together with the
`SHOW WARNINGS` rows MySQL reported for it. -/
structure StmtExec where
  stmt : String
  warnings : List Warning
  deriving DecidableEq, Repr

/-- The statement loop of one `RetryableTransaction` attempt (`dbconn.go`
lines 138-191) restricted to the warning handling: statements run
sequentially; after each one `SHOW WARNINGS` is scanned and the first
unsafe warning rolls the whole transaction back. -/
def execStmtsWarnOutcome (ignoreDupKeyWarnings : Bool) : List StmtExec → WarnOutcome
  | [] => .proceed
  | s :: rest =>
    match processWarnings ignoreDupKeyWarnings s.warnings with
    | .proceed => execStmtsWarnOutcome ignoreDupKeyWarnings rest
    | .abort m => .abort m

/-- The call in `flushDeltaQueue` (`subscription.go` line 157) passes
`RetryableTransaction` with `ignoreDupKeyWarnings = true`. -/
def flushDeltaQueueIgnoresDupKeyWarnings : Bool := true

/-- The call in `flushDeltaMap` (`subscription.go` line 215) passes
`RetryableTransaction` with `ignoreDupKeyWarnings = false`. -/
def flushDeltaMapIgnoresDupKeyWarnings : Bool := false

/-! ## repl: positions, subscriptions and delta stores -/

/-- A binlog position `(file, offset)` (`go-mysql` `mysql.Position`). -/
structure Position where
  name : String
  pos : Nat
  deriving DecidableEq, Repr

/-- A queued change intent (`subscription.go` lines 16-19). -/
structure QueuedChange where
  key : Str
  isDelete : Bool
  deriving DecidableEq, Repr

/-- Overwrite-or-insert into an association list; models assignment into the
Go `map[string]bool` delta map. -/
def assocSet (m : List (Str × Bool)) (k : Str) (v : Bool) : List (Str × Bool) :=
  match m with
  | [] => [(k, v)]
  | (k', v') :: rest => if k' = k then (k, v) :: rest else (k', v') :: assocSet rest k v

/-- A subscription (`subscription.go` lines 21-35): a source/shadow table
pair with either a delta map (default) or, when the primary key is not
memory comparable (`disableDeltaMap`), a FIFO delta queue. The
`keyAboveCopierCallback` is `none` when no chunker callback is attached. -/
structure Subscription where
  disableDeltaMap : Bool
  deltaMap : List (Str × Bool)
  deltaQueue : List QueuedChange
  enableKeyAboveWatermark : Bool
  keyAboveCopierCallback : Option (Str → Bool)

/-- Transcribes `getDeltaLen` (`subscription.go` lines 37-45). -/
def Subscription.getDeltaLen (s : Subscription) : Nat :=
  if s.disableDeltaMap then s.deltaQueue.length else s.deltaMap.length

/-- Transcribes `keyAboveWatermarkEnabled` (`subscription.go` lines 234-236): the
optimization applies only when enabled and a callback is attached. -/
def Subscription.keyAboveWatermarkEnabled (s : Subscription) : Bool :=
  s.enableKeyAboveWatermark && s.keyAboveCopierCallback.isSome

/-- Transcribes `setKeyAboveWatermarkOptimization` (`subscription.go` lines 238-242). -/
def Subscription.setKeyAboveWatermarkOptimization (s : Subscription) (enabled : Bool) :
    Subscription :=
  { s with enableKeyAboveWatermark := enabled }

/-- Transcribes `utils.HashKey` (`src/unnamed/part_004` lines 18-24): join the key
values with the separator `-#-`.  Key values are already rendered as
strings (`fmt.Sprintf` with the `v` verb renders a Go string as itself). -/
def HashKey (key : List Str) : Str :=
  match key with
  | [] => []
  | v :: rest => v ++ (rest.foldr (fun w acc => '-' :: '#' :: '-' :: w ++ acc) [])

/-- Transcribes `keyHasChanged` (`subscription.go` lines 47-64): consult the
key-above-watermark callback (on the first key column); if it fires, drop
the event entirely; otherwise buffer it in the queue (queue mode) or
overwrite the map entry (map mode). -/
def Subscription.keyHasChanged (s : Subscription) (key : List Str) (deleted : Bool) :
    Subscription :=
  if s.keyAboveWatermarkEnabled &&
      (s.keyAboveCopierCallback.getD (fun _ => false)) (key.headD []) then
    s
  else if s.disableDeltaMap then
    { s with deltaQueue := s.deltaQueue ++ [⟨HashKey key, deleted⟩] }
  else
    { s with deltaMap := assocSet s.deltaMap (HashKey key) deleted }

/-! ## Flush statement building (`flushDeltaQueue` / `flushDeltaMap`) -/

/-- A flush statement produced by `createDeleteStmt` / `createReplaceStmt`
(`subscription.go` lines 66-97): a multi-key `DELETE FROM newTable WHERE
(pk) IN (…)` when `isDelete`, otherwise a multi-key `REPLACE INTO newTable
… SELECT … WHERE (pk) IN (…)`; `keys` is the ordered key list placed in
the `IN` clause (the SQL text rendering, `pksToRowValueConstructor`, lives
in the client file which is not under `src/`). -/
structure FlushStmt where
  isDelete : Bool
  keys : List Str
  deriving DecidableEq, Repr

/-- The merge loop of `flushDeltaQueue` (`subscription.go` lines 125-146):
`prev` is `prevKey.isDelete` and `buffer` the pending run.  A statement is
emitted when the change kind flips or the buffer exceeds the target batch
size; after the loop the remaining buffer is emitted once more. -/
def flushDeltaQueueStmtsAux (target : Nat) :
    List QueuedChange → Bool → List Str → List FlushStmt
  | [], prev, buffer => [⟨prev, buffer⟩]
  | c :: rest, prev, buffer =>
    if c.isDelete != prev || buffer.length > target then
      ⟨prev, buffer⟩ :: flushDeltaQueueStmtsAux target rest c.isDelete [c.key]
    else
      flushDeltaQueueStmtsAux target rest c.isDelete (buffer ++ [c.key])

/-- The statements built by one `flushDeltaQueue` call from a non-empty
delta queue (`subscription.go` lines 118-146; `prevKey` is initialised to
`s.deltaQueue[0]` and the loop then visits every element). -/
def flushDeltaQueueStmts (target : Nat) (q : List QueuedChange) : List FlushStmt :=
  match q with
  | [] => []
  | c0 :: _ => flushDeltaQueueStmtsAux target q c0.isDelete []

/-- The batching loop of `flushDeltaMap` (`subscription.go` lines 178-195):
keys are partitioned into delete/replace lists and a pair of statements is
emitted every `target` entries, plus once at the end.  The delta map is
modelled as an association list, fixing one iteration order of the Go
map. -/
def flushDeltaMapStmtsAux (target : Nat) :
    List (Str × Bool) → Nat → List Str → List Str → List FlushStmt
  | [], _, deleteKeys, replaceKeys => [⟨true, deleteKeys⟩, ⟨false, replaceKeys⟩]
  | (k, isDelete) :: rest, i, deleteKeys, replaceKeys =>
    let deleteKeys' := if isDelete then deleteKeys ++ [k] else deleteKeys
    let replaceKeys' := if isDelete then replaceKeys else replaceKeys ++ [k]
    if (i + 1) % target == 0 then
      ⟨true, deleteKeys'⟩ :: ⟨false, replaceKeys'⟩ ::
        flushDeltaMapStmtsAux target rest (i + 1) [] []
    else
      flushDeltaMapStmtsAux target rest (i + 1) deleteKeys' replaceKeys'

/-- The statements built by one `flushDeltaMap` call. -/
def flushDeltaMapStmts (target : Nat) (m : List (Str × Bool)) : List FlushStmt :=
  flushDeltaMapStmtsAux target m 0 [] []

/-- Result of handing a statement batch to the database, whether through
`TableLock.ExecUnderLock` (final flush, `tablelock.go` lines 86-97),
`dbconn.RetryableTransaction` (queue mode, sequential) or the
bounded error group of parallel `RetryableTransaction` calls (map mode). -/
inductive ExecResult where
  | ok : ExecResult
  | fail (err : String) : ExecResult
  deriving DecidableEq, Repr

/-- Transcribes `flushDeltaQueue` (`subscription.go` lines 114-166): early-return on an
empty queue; otherwise build the merged statements, execute them (under
lock or in a single sequential `RetryableTransaction`), and clear the
queue only when execution succeeded. -/
def Subscription.flushDeltaQueue (s : Subscription) (target : Nat)
    (exec : List FlushStmt → ExecResult) : Subscription × Option String :=
  if s.deltaQueue = [] then (s, none)
  else
    match exec (flushDeltaQueueStmts target s.deltaQueue) with
    | .fail e => (s, some e)
    | .ok => ({ s with deltaQueue := [] }, none)

/-- Transcribes `flushDeltaMap` (`subscription.go` lines 170-230): build the batched
statements, execute them (under lock, or in parallel transactions over
disjoint keys), and clear the map only when every statement succeeded. -/
def Subscription.flushDeltaMap (s : Subscription) (target : Nat)
    (exec : List FlushStmt → ExecResult) : Subscription × Option String :=
  match exec (flushDeltaMapStmts target s.deltaMap) with
  | .fail e => (s, some e)
  | .ok => ({ s with deltaMap := [] }, none)

/-- The replication client state visible to `AllChangesFlushed` and the
cutover: the last acknowledged (`bufferedPos`) and last flushed
(`flushedPos`) binlog positions plus the registered subscriptions. -/
structure Client where
  bufferedPos : Position
  flushedPos : Position
  subscriptions : List Subscription

/-- The client's `GetDeltaLen`: total buffered change intents over all
subscriptions. -/
def Client.getDeltaLen (c : Client) : Nat :=
  (c.subscriptions.map Subscription.getDeltaLen).sum

/-- The function `AllChangesFlushed` as exercised by its test
(`src/unnamed/part_001` lines 731-802, `TestAllChangesFlushed`); the
function body itself is not under `src/`.  Test 6 there asserts the result
is `true` when the delta stores are empty even though
`flushedPos ≠ bufferedPos` ("Should be flushed when no pending changes,
even with positions different"), so the condition is delta-store emptiness
alone. -/
def Client.allChangesFlushed (c : Client) : Bool :=
  c.getDeltaLen == 0

/-- The function `AllChangesFlushed` as the specification words it (spec 4.2: "
`AllChangesFlushed()` ≡ `flushedPos == bufferedPos ∧ all deltaStores
empty`").  Written for comparison with `Client.allChangesFlushed`. -/
def Client.allChangesFlushedSpec (c : Client) : Bool :=
  (c.flushedPos == c.bufferedPos) && c.getDeltaLen == 0

/-! ### The states of `TestAllChangesFlushed` (`src/unnamed/part_001` lines 731-802)

The test drives `AllChangesFlushed` through eight numbered scenarios; the
states below transcribe the mutations it performs.  Go zero values give the
initial positions `("", 0)`; subscriptions are created with empty stores,
no callback and the optimization off. -/

/-- The map-mode subscription the test constructs (`part_001` lines
747-753): empty delta map, no callback. -/
def c2Sub : Subscription :=
  { disableDeltaMap := false, deltaMap := [], deltaQueue := [],
    enableKeyAboveWatermark := false, keyAboveCopierCallback := none }

/-- The queue-mode subscription of Test 8 (`part_001` lines 789-796). -/
def c2SubQueue : Subscription :=
  { disableDeltaMap := true, deltaMap := [], deltaQueue := [],
    enableKeyAboveWatermark := false, keyAboveCopierCallback := none }

/-- Test 1: fresh client, no subscriptions. -/
def c2Client0 : Client := ⟨⟨"", 0⟩, ⟨"", 0⟩, []⟩

/-- Test 2: one empty subscription registered. -/
def c2Client1 : Client := { c2Client0 with subscriptions := [c2Sub] }

/-- Test 3: `sub.keyHasChanged([]any{1}, false)`. -/
def c2Client2 : Client :=
  { c2Client1 with subscriptions := [c2Sub.keyHasChanged [['1']] false] }

/-- Test 4: buffered position ahead of the flushed position. -/
def c2Client3 : Client :=
  { c2Client2 with bufferedPos := ⟨"binlog.000001", 100⟩,
                   flushedPos := ⟨"binlog.000001", 50⟩ }

/-- Test 5: a second subscription with `keyHasChanged([]any{2}, false)`. -/
def c2Client4 : Client :=
  { c2Client3 with subscriptions :=
      c2Client3.subscriptions ++ [c2Sub.keyHasChanged [['2']] false] }

/-- Test 6: both delta maps replaced by fresh empty maps while the
positions still differ (`part_001` lines 778-781); the test asserts
"Should be flushed when no pending changes, even with positions
different". -/
def c2Client5 : Client := { c2Client4 with subscriptions := [c2Sub, c2Sub] }

/-- Test 7: positions aligned. -/
def c2Client6 : Client :=
  { c2Client5 with flushedPos := ⟨"binlog.000001", 100⟩ }

/-- Test 8, first assertion: an empty queue-mode subscription added. -/
def c2Client7 : Client :=
  { c2Client6 with subscriptions := c2Client6.subscriptions ++ [c2SubQueue] }

/-- Test 8, second assertion: `subQueue.keyHasChanged([]any{3}, false)`. -/
def c2Client8 : Client :=
  { c2Client7 with subscriptions :=
      [c2Sub, c2Sub, c2SubQueue.keyHasChanged [['3']] false] }

/-- The assertion sequence of `TestAllChangesFlushed`: each state paired
with the boolean the test asserts `AllChangesFlushed` returns there. -/
def testAllChangesFlushedCases : List (Client × Bool) :=
  [(c2Client0, true), (c2Client1, true), (c2Client2, false), (c2Client3, false),
   (c2Client4, false), (c2Client5, true), (c2Client6, true), (c2Client7, true),
   (c2Client8, false)]

/-- The client's `SetKeyAboveWatermarkOptimization`: the client method
body is not under `src/`; per its use in the tests and
`setKeyAboveWatermarkOptimization` (`subscription.go` lines 238-242) it
forwards the flag to every registered subscription. -/
def Client.setKeyAboveWatermarkOptimization (c : Client) (enabled : Bool) : Client :=
  { c with subscriptions :=
      c.subscriptions.map (Subscription.setKeyAboveWatermarkOptimization · enabled) }

/-! ## runner.go: migration state machine, checkpointing and resume -/

/-- The migration states (`runner.go` lines 29-39), in `iota` order. -/
inductive MigrationState where
  | initial
  | copyRows
  | applyChangeset
  | analyzeTable
  | checksum
  | postChecksum
  | cutOver
  | close
  | errCleanup
  deriving DecidableEq, Repr

/-- The `iota` value of a migration state; `migrationState` is an `int32`
and states are compared numerically (`runner.go` line 815). -/
def MigrationState.toInt : MigrationState → Nat
  | .initial => 0
  | .copyRows => 1
  | .applyChangeset => 2
  | .analyzeTable => 3
  | .checksum => 4
  | .postChecksum => 5
  | .cutOver => 6
  | .close => 7
  | .errCleanup => 8

/-- The runner fields that `setCurrentState` touches. -/
structure RunnerLite where
  currentState : MigrationState
  replClient : Option Client

/-- Transcribes `setCurrentState` (`runner.go` lines 813-818): store the new state and,
for any state past `copyRows`, disable the key-above-watermark
optimization on the replication client. -/
def setCurrentState (r : RunnerLite) (s : MigrationState) : RunnerLite :=
  { currentState := s,
    replClient :=
      if s.toInt > MigrationState.copyRows.toInt then
        r.replClient.map (Client.setKeyAboveWatermarkOptimization · false)
      else
        r.replClient }

/-- Column list of the checkpoint table created by `createCheckpointTable`
(`runner.go` line 622): `id` is the auto-increment primary key. -/
def checkpointTableColumns : List String :=
  ["id", "low_watermark", "binlog_name", "binlog_pos", "rows_copied",
   "rows_copied_logical", "alter_statement"]

/-- Column list of the `INSERT` issued by `dumpCheckpoint` (`runner.go`
lines 836-838); `id` is assigned by auto-increment. -/
def dumpCheckpointColumns : List String :=
  ["low_watermark", "binlog_name", "binlog_pos", "rows_copied",
   "rows_copied_logical", "alter_statement"]

/-- One row of the `_<table>_chkpnt` table (`runner.go` line 622). -/
structure CheckpointRow where
  id : Nat
  lowWatermark : String
  binlogName : String
  binlogPos : Nat
  rowsCopied : Nat
  rowsCopiedLogical : Nat
  alterStatement : String
  deriving DecidableEq, Repr

/-- Transcribes `dumpCheckpoint` (`runner.go` lines 820-840): append one row holding
the copier low watermark, the flushed binlog position, both row counters
and the verbatim `--alter`; `nextId` is the table's next auto-increment
value. -/
def dumpCheckpoint (rows : List CheckpointRow) (nextId : Nat) (lowWatermark : String)
    (binlog : Position) (rowsCopied rowsCopiedLogical : Nat) (alter : String) :
    List CheckpointRow :=
  rows ++ [⟨nextId, lowWatermark, binlog.name, binlog.pos, rowsCopied,
           rowsCopiedLogical, alter⟩]

/-- The read-back query of `resumeFromCheckpoint` (`runner.go` lines
709-714): `SELECT … ORDER BY id DESC LIMIT 1`, i.e. the row with the
largest `id` (later rows win ties, matching a stable descending sort of
the append order). -/
def readLatestCheckpoint : List CheckpointRow → Option CheckpointRow
  | [] => none
  | r :: rest =>
    match readLatestCheckpoint rest with
    | none => some r
    | some best => some (if best.id ≥ r.id then best else r)

/-- The migration options used by the runner paths under study
(`runner.go` uses `r.migration.Alter` and `r.migration.Checksum`; the
`Migration` struct itself is not under `src/`). -/
structure Migration where
  alter : String
  checksum : Bool
  deriving DecidableEq, Repr

/-- Modelled from the spec: the default of the `--checksum` option is on
("optional otherwise (but on by default)", spec 4.4); the `Migration` struct
carrying the default is not under `src/`. -/
def defaultMigrationChecksum : Bool := true

/-- The distinct failure reasons of `resumeFromCheckpoint`
(`runner.go` lines 692-776), in the order they can occur. -/
inductive ResumeError where
  | newTableNotReadable
  | checkpointNotReadable
  | mismatchedAlter
  | newTableInfoFailed
  | copierFailed
  | replRunFailed
  deriving DecidableEq, Repr

/-- Oracle for the fallible environment steps of `resumeFromCheckpoint`:
whether `_<t>_new` is readable, the newest checkpoint row (if readable),
and whether `SetInfo`, the copier construction and `replClient.Run`
succeed. -/
structure ResumeEnv where
  newTableReadable : Bool
  checkpoint : Option CheckpointRow
  newTableInfoOK : Bool
  copierOK : Bool
  replRunOK : Bool

/-- Transcribes `resumeFromCheckpoint` (`runner.go` lines 692-776) as a decision
function: returns the (possibly mutated) migration and the error, if any.
The checkpoint row is validated against the current `--alter` (line 718);
on the path past that validation the runner sets
`r.migration.Checksum = true` (line 734) because resume-from-checkpoint
must re-verify partially re-applied rows. -/
def resumeFromCheckpoint (m : Migration) (env : ResumeEnv) :
    Migration × Option ResumeError :=
  if !env.newTableReadable then (m, some .newTableNotReadable)
  else
    match env.checkpoint with
    | none => (m, some .checkpointNotReadable)
    | some row =>
      if m.alter != row.alterStatement then (m, some .mismatchedAlter)
      else if !env.newTableInfoOK then (m, some .newTableInfoFailed)
      else
        let m' : Migration := { m with checksum := true }
        if !env.copierOK then (m', some .copierFailed)
        else if !env.replRunOK then (m', some .replRunFailed)
        else (m', none)

/-- Which path `setup` takes (`runner.go` lines 357-397). -/
inductive SetupPath where
  | resumed (m : Migration)
  | fresh (m : Migration)
  deriving DecidableEq, Repr

/-- Transcribes `setup` (`runner.go` lines 363-397): first attempt
`resumeFromCheckpoint`; any resume error is logged and the migration
falls through to the fresh-start steps (`createNewTable`,
`alterNewTable`, `createCheckpointTable`, new copier and client). -/
def setup (m : Migration) (env : ResumeEnv) : SetupPath :=
  match resumeFromCheckpoint m env with
  | (m', none) => .resumed m'
  | (m', some _) => .fresh m'

/-- Result of the strict-aware setup. -/
inductive StrictSetupResult where
  | errMismatchedAlter
  | proceed (p : SetupPath)
  deriving DecidableEq, Repr

/-- Modelled from the spec: the strict-mode resume dispatch ("Compare
stored DDL to current `--alter`; if different: in strict mode return
`ErrMismatchedAlter`, else discard checkpoint", spec 4.6; also documented in
`src/pkg/migration/resume-from-checkpoint.md`).  The strict-aware runner
version is not under `src/`; the non-strict branch is exactly the `setup`
fall-through of `runner.go`. -/
def setupStrict (strict : Bool) (m : Migration) (env : ResumeEnv) : StrictSetupResult :=
  match resumeFromCheckpoint m env with
  | (m', none) => .proceed (.resumed m')
  | (m', some e) =>
    if strict && (e = ResumeError.mismatchedAlter : Bool) then .errMismatchedAlter
    else .proceed (.fresh m')

/-- The function `prepareForCutover` runs the checksum exactly when the migration's
`Checksum` flag is set (`runner.go` lines 298-302). -/
def prepareForCutoverRunsChecksum (m : Migration) : Bool :=
  m.checksum

/-! ## Cutover: `algorithmRenameUnderLock` -/

/-- A schema-qualified table; `QuotedName` as produced by the table
package. -/
structure TableRef where
  schemaName : String
  tableName : String
  deriving DecidableEq, Repr

def TableRef.quotedName (t : TableRef) : String :=
  "`" ++ t.schemaName ++ "`.`" ++ t.tableName ++ "`"

/-- The `LOCK TABLES … WRITE` statement built by `NewTableLock`
(`tablelock.go` lines 32-39): each table's quoted name followed by
`WRITE`, comma-separated. -/
def buildLockTablesStmt (quotedNames : List String) : String :=
  "LOCK TABLES " ++
    (match quotedNames with
     | [] => ""
     | t :: rest => t ++ " WRITE" ++ String.join (rest.map (fun u => ", " ++ u ++ " WRITE")))

/-- The single atomic rename of the cutover
(`utils_test.go` lines 179-184): `RENAME TABLE S TO _S_old, shadow TO S`. -/
def renameStatement (t newT : TableRef) : String :=
  let oldName := "_" ++ t.tableName ++ "_old"
  let oldQuotedName := "`" ++ t.schemaName ++ "`.`" ++ oldName ++ "`"
  "RENAME TABLE " ++ t.quotedName ++ " TO " ++ oldQuotedName ++ ", " ++
    newT.quotedName ++ " TO " ++ t.quotedName

/-- An observable step of one cutover attempt.  Every one of these actions
executes on the dedicated lock connection: `NewTableLock` opens it,
`ExecUnderLock` runs statements on `lockTxn` (`tablelock.go` lines 86-97),
and the final flush routes through `ExecUnderLock` when `underLock` is set
(`subscription.go` lines 147-153 and 197-202). -/
inductive CutoverAction where
  | lockTables (stmt : String)
  | flushStmtUnderLock (s : FlushStmt)
  | checkAllChangesFlushed
  | renameUnderLock (stmt : String)
  deriving DecidableEq, Repr

/-- Oracle for one cutover attempt: whether the lock is acquired, whether
the under-lock flush succeeds, the flush statements it executes, and the
value of `feed.AllChangesFlushed()` after the flush. -/
structure CutoverEnv where
  lockOK : Bool
  flushOK : Bool
  flushStmts : List FlushStmt
  allChangesFlushed : Bool

/-- Transcribes `algorithmRenameUnderLock` (`utils_test.go` lines 162-186 and 355-375):
acquire `LOCK TABLES … WRITE` on a dedicated connection, flush the
replication client under that lock, fail the attempt unless
`AllChangesFlushed()`, and only then execute the single `RENAME TABLE`
swap on the same lock connection.  Returns the action trace and whether
the attempt reached the rename. -/
def algorithmRenameUnderLock (t newT : TableRef) (env : CutoverEnv) :
    List CutoverAction × Bool :=
  let lockStmt := buildLockTablesStmt [t.quotedName, newT.quotedName]
  if !env.lockOK then ([.lockTables lockStmt], false)
  else
    let flushTrace := env.flushStmts.map CutoverAction.flushStmtUnderLock
    if !env.flushOK then ([.lockTables lockStmt] ++ flushTrace, false)
    else if !env.allChangesFlushed then
      ([.lockTables lockStmt] ++ flushTrace ++ [.checkAllChangesFlushed], false)
    else
      ([.lockTables lockStmt] ++ flushTrace ++
        [.checkAllChangesFlushed, .renameUnderLock (renameStatement t newT)], true)

/-! ## utils: `HashKey` / `UnhashKey` round trip

`HashKey` (`src/unnamed/part_004` lines 18-24) joins the key values with
the separator `-#-`; `UnhashKey` (lines 40-49) splits on that separator
(Go `strings.Split`), SQL-escapes and single-quotes each part, and wraps
composite keys in parentheses. -/

/-- The single-quote character, written by code point to keep SQL text
readable in this file. -/
def sqlQuote : Char := Char.ofNat 39

/-- The double-quote character, by code point. -/
def sqlDQuote : Char := Char.ofNat 34

/-- Whether a string begins with the `-#-` separator
(`PrimaryKeySeparator`, `part_004` line 13). -/
def startsWithSep (s : Str) : Bool :=
  match s with
  | a :: b :: c :: _ => a = '-' && b = '#' && c = '-'
  | _ => false

/-- Transcribes `strings.Split(key, "-#-")` (`part_004` line 41), split into the first
part and the remaining parts: scan left to right; at each leftmost
occurrence of the separator close the current part and continue after
it. -/
def splitSepCore : Str → Str × List Str
  | [] => ([], [])
  | c :: rest =>
    if startsWithSep (c :: rest) then
      let tail := splitSepCore (rest.drop 2)
      ([], tail.1 :: tail.2)
    else
      let tail := splitSepCore rest
      (c :: tail.1, tail.2)
termination_by s => s.length
decreasing_by
  · simp only [List.length_cons, List.length_drop]
    omega
  · simp only [List.length_cons]
    omega

/-- Transcribes `strings.Split(key, "-#-")`: always at least one part. -/
def splitSep (s : Str) : List Str :=
  (splitSepCore s).1 :: (splitSepCore s).2

/-- Modelled from the spec: `sqlescape.EscapeString` is not under `src/`;
per the spec the parts of the key become quoted SQL literals denoting the
original values, so the escape maps each MySQL-special character to a
backslash escape (NUL, newline, carriage return, backslash, the two quote
characters, Ctrl-Z) and leaves every other character unchanged.  `escChar`
gives the second character of the escape sequence, if the character needs
escaping. -/
def escChar (c : Char) : Option Char :=
  if c = Char.ofNat 0 then some '0'
  else if c = Char.ofNat 10 then some 'n'
  else if c = Char.ofNat 13 then some 'r'
  else if c = '\\' then some '\\'
  else if c = sqlQuote then some sqlQuote
  else if c = sqlDQuote then some sqlDQuote
  else if c = Char.ofNat 26 then some 'Z'
  else none

/-- Character-wise SQL string escaping (see `escChar`). -/
def sqlEscape : Str → Str
  | [] => []
  | c :: rest =>
    match escChar c with
    | some e => '\\' :: e :: sqlEscape rest
    | none => c :: sqlEscape rest

/-- The character denoted by the second character of a backslash escape
sequence: inverse of `escChar` on its image. -/
def escCharInv (e : Char) : Char :=
  if e = '0' then Char.ofNat 0
  else if e = 'n' then Char.ofNat 10
  else if e = 'r' then Char.ofNat 13
  else if e = 'Z' then Char.ofNat 26
  else e

/-- MySQL's reading of a backslash-escaped string body: the semantics by
which a quoted literal denotes a string value. -/
def sqlUnescape : Str → Str
  | [] => []
  | c :: rest =>
    if c = '\\' then
      match rest with
      | [] => []
      | e :: rest' => escCharInv e :: sqlUnescape rest'
    else
      c :: sqlUnescape rest

/-- A part of the key rendered as a quoted SQL literal:
`"'" + EscapeString(v) + "'"` (`part_004` lines 43 and 46). -/
def quoteEscaped (v : Str) : Str :=
  sqlQuote :: (sqlEscape v ++ [sqlQuote])

/-- Transcribes `strings.Join(parts, ",")` (`part_004` line 48). -/
def commaJoin : List Str → Str
  | [] => []
  | v :: rest => v ++ rest.foldr (fun w acc => ',' :: (w ++ acc)) []

/-- Transcribes `UnhashKey` (`part_004` lines 40-49): split the hashed key on `-#-`;
a single part becomes `'v'`, several parts become `('v1','v2',…)`. -/
def UnhashKey (key : Str) : Str :=
  match splitSep key with
  | [s] => quoteEscaped s
  | parts => '(' :: (commaJoin (parts.map quoteEscaped) ++ [')'])

/-- The form the claim says the round trip produces: a single-column key
becomes `'v'` and a composite key becomes `('v1',…,'vN')`, each component
quoting the escaped original value.  Written from the spec's words for
comparison with `UnhashKey ∘ HashKey`. -/
def renderKeyLiteralSpec (vs : List Str) : Str :=
  match vs with
  | [v] => quoteEscaped v
  | _ => '(' :: (commaJoin (vs.map quoteEscaped) ++ [')'])

/-! # Theorems -/

/-! ## C1 — cutover order -/

/-- C1: in the cutover's rename-under-lock algorithm, every attempt
performs, in order: acquire the `LOCK TABLES … WRITE` lock, flush the
replication client on the locked connection, fail the attempt unless
`AllChangesFlushed()` holds, and only then swap the tables with the single
`RENAME TABLE S TO _S_old, shadow TO S` statement on the same dedicated
lock connection; the rename is never executed while `AllChangesFlushed()`
is false. -/
theorem C1_cutover_rename_under_lock (t newT : TableRef) (env : CutoverEnv) :
    (env.allChangesFlushed = false →
      ∀ stmt, CutoverAction.renameUnderLock stmt ∉ (algorithmRenameUnderLock t newT env).1) ∧
    ((algorithmRenameUnderLock t newT env).2 = true →
      env.lockOK = true ∧ env.flushOK = true ∧ env.allChangesFlushed = true ∧
      (algorithmRenameUnderLock t newT env).1 =
        CutoverAction.lockTables (buildLockTablesStmt [t.quotedName, newT.quotedName]) ::
          (env.flushStmts.map CutoverAction.flushStmtUnderLock ++
            [CutoverAction.checkAllChangesFlushed,
             CutoverAction.renameUnderLock (renameStatement t newT)])) := by
  rcases env with ⟨lockOK, flushOK, flushStmts, acf⟩
  cases lockOK <;> cases flushOK <;> cases acf <;>
    simp [algorithmRenameUnderLock, List.mem_map]

/-- Witness for C1 at a concrete successful attempt on table `test.t1`. -/
theorem C1_cutover_rename_under_lock_witness :
    (algorithmRenameUnderLock ⟨"test", "t1"⟩ ⟨"test", "_t1_new"⟩
        ⟨true, true, [], true⟩).1 =
      [CutoverAction.lockTables "LOCK TABLES `test`.`t1` WRITE, `test`.`_t1_new` WRITE",
       CutoverAction.checkAllChangesFlushed,
       CutoverAction.renameUnderLock
         "RENAME TABLE `test`.`t1` TO `test`.`_t1_old`, `test`.`_t1_new` TO `test`.`t1`"] := by
  have h := (C1_cutover_rename_under_lock ⟨"test", "t1"⟩ ⟨"test", "_t1_new"⟩
      ⟨true, true, [], true⟩).2 rfl
  exact h.2.2.2.trans (by rfl)

/-! ## C2 — `AllChangesFlushed` -/

/-- C2 counterexample: at the state of Test 6 of `TestAllChangesFlushed`
(delta stores emptied, `bufferedPos = 100` but `flushedPos = 50`) the
source test asserts `AllChangesFlushed()` is **true**, while the claim's
condition `flushedPos == bufferedPos ∧ all deltaStores empty` evaluates to
false there: the position comparison is not part of the function's
condition. -/
theorem C2_counterexample :
    c2Client5.allChangesFlushed = true ∧ c2Client5.allChangesFlushedSpec = false := by
  exact ⟨rfl, rfl⟩

/-- C2 (amended): `AllChangesFlushed()` returns true iff every
subscription's delta store (map or queue) is empty; equality of the
flushed and buffered binlog positions is not required.  The function, as
pinned by its test, passes every assertion of `TestAllChangesFlushed`. -/
theorem C2_all_changes_flushed_iff_stores_empty :
    (∀ c : Client, c.allChangesFlushed = true ↔
        ∀ s ∈ c.subscriptions, s.getDeltaLen = 0) ∧
    (testAllChangesFlushedCases.all fun p => p.1.allChangesFlushed == p.2) = true := by
  constructor
  · intro c
    simp [Client.allChangesFlushed, Client.getDeltaLen, List.sum_eq_zero_iff]
  · rfl

/-! ## C6 — warning filtering in flush transactions -/

/-- The per-statement `SHOW WARNINGS` scan proceeds iff every warning is
`3170`, or `1062` while duplicate-key warnings are ignored. -/
theorem processWarnings_proceed_iff (ign : Bool) (ws : List Warning) :
    processWarnings ign ws = .proceed ↔
      ∀ w ∈ ws, w.code = "3170" ∨ (w.code = "1062" ∧ ign = true) := by
  induction ws with
  | nil => simp [processWarnings]
  | cons w rest ih =>
    simp only [processWarnings, List.mem_cons, forall_eq_or_imp]
    by_cases h62 : w.code = "1062" <;> by_cases h70 : w.code = "3170" <;>
      cases ign <;> simp_all

/-- A whole transaction attempt proceeds past the warning scans iff every
statement's warnings are all tolerated. -/
theorem execStmtsWarnOutcome_proceed_iff (ign : Bool) (stmts : List StmtExec) :
    execStmtsWarnOutcome ign stmts = .proceed ↔
      ∀ s ∈ stmts, ∀ w ∈ s.warnings,
        w.code = "3170" ∨ (w.code = "1062" ∧ ign = true) := by
  induction stmts with
  | nil => simp [execStmtsWarnOutcome]
  | cons s rest ih =>
    simp only [execStmtsWarnOutcome, List.mem_cons, forall_eq_or_imp]
    rcases hpw : processWarnings ign s.warnings with _ | m
    · simpa [ih] using fun _ => (processWarnings_proceed_iff ign s.warnings).mp hpw
    · have : ¬ (∀ w ∈ s.warnings, w.code = "3170" ∨ (w.code = "1062" ∧ ign = true)) := by
        intro hall
        have := (processWarnings_proceed_iff ign s.warnings).mpr hall
        rw [hpw] at this
        exact WarnOutcome.noConfusion this
      simp_all

/-- C6 counterexample: a duplicate-key warning `1062` during a map-mode
flush transaction (`flushDeltaMap` passes `ignoreDupKeyWarnings = false`)
rolls the transaction back instead of being tolerated. -/
theorem C6_counterexample :
    processWarnings flushDeltaMapIgnoresDupKeyWarnings
        [⟨"Warning", "1062", "Duplicate entry"⟩] = .abort "Duplicate entry" ∧
      flushDeltaMapIgnoresDupKeyWarnings = false := by
  exact ⟨rfl, rfl⟩

/-- C6 (amended): in a flush transaction, warning `3170` is always
tolerated and warning `1062` is tolerated exactly when the transaction
ignores duplicate-key warnings; any other warning rolls the transaction
back with an error.  Queue-mode flushes pass `ignoreDupKeyWarnings =
true` (both tolerated); map-mode flushes pass `false`, so `1062` also
aborts there. -/
theorem C6_flush_warning_filter :
    (∀ (ign : Bool) (ws : List Warning),
        processWarnings ign ws = .proceed ↔
          ∀ w ∈ ws, w.code = "3170" ∨ (w.code = "1062" ∧ ign = true)) ∧
    (∀ (ign : Bool) (stmts : List StmtExec),
        execStmtsWarnOutcome ign stmts = .proceed ↔
          ∀ s ∈ stmts, ∀ w ∈ s.warnings,
            w.code = "3170" ∨ (w.code = "1062" ∧ ign = true)) ∧
    flushDeltaQueueIgnoresDupKeyWarnings = true ∧
    flushDeltaMapIgnoresDupKeyWarnings = false := by
  exact ⟨processWarnings_proceed_iff, execStmtsWarnOutcome_proceed_iff, rfl, rfl⟩

/-! ## C10 — flush atomicity w.r.t. the delta store -/

/-- C10: subscription flushes are atomic with respect to the delta store:
when any statement of `flushDeltaQueue` or `flushDeltaMap` fails, the
flush returns the error with the subscription unchanged; the store is
cleared only on full success, and the other store is never touched. -/
theorem C10_flush_atomic (s : Subscription) (target : Nat)
    (exec : List FlushStmt → ExecResult) :
    ((s.flushDeltaQueue target exec).2.isSome →
        (s.flushDeltaQueue target exec).1 = s) ∧
    ((s.flushDeltaQueue target exec).2 = none →
        (s.flushDeltaQueue target exec).1.deltaQueue = [] ∧
        (s.flushDeltaQueue target exec).1.deltaMap = s.deltaMap) ∧
    ((s.flushDeltaMap target exec).2.isSome →
        (s.flushDeltaMap target exec).1 = s) ∧
    ((s.flushDeltaMap target exec).2 = none →
        (s.flushDeltaMap target exec).1.deltaMap = [] ∧
        (s.flushDeltaMap target exec).1.deltaQueue = s.deltaQueue) := by
  refine ⟨?_, ?_, ?_, ?_⟩
  · intro h
    simp only [Subscription.flushDeltaQueue] at h ⊢
    split at h
    · simp_all
    · split at h <;> simp_all
  · intro h
    simp only [Subscription.flushDeltaQueue] at h ⊢
    split at h
    · simp_all
    · split at h <;> simp_all
  · intro h
    simp only [Subscription.flushDeltaMap] at h ⊢
    split at h <;> simp_all
  · intro h
    simp only [Subscription.flushDeltaMap] at h ⊢
    split at h <;> simp_all

/-- Witness for C10: a failing flush on a subscription with one queued
change leaves the subscription intact. -/
theorem C10_flush_atomic_witness :
    ((Subscription.mk true [] [⟨['k'], false⟩] false none).flushDeltaQueue 5
        (fun _ => .fail "boom")).1 =
      Subscription.mk true [] [⟨['k'], false⟩] false none := by
  exact (C10_flush_atomic (Subscription.mk true [] [⟨['k'], false⟩] false none) 5
    (fun _ => .fail "boom")).1 rfl

/-! ## C3 — mismatched alter on resume -/

/-- C3: during resume-from-checkpoint the stored DDL is compared to the
current `--alter` (after the shadow table and checkpoint row were read);
when they differ, strict mode returns `ErrMismatchedAlter` while
non-strict mode discards the checkpoint and the migration falls through
to a fresh start. -/
theorem C3_resume_mismatched_alter (m : Migration) (env : ResumeEnv)
    (row : CheckpointRow) (hread : env.newTableReadable = true)
    (hcp : env.checkpoint = some row) (hneq : m.alter ≠ row.alterStatement) :
    resumeFromCheckpoint m env = (m, some .mismatchedAlter) ∧
    setupStrict true m env = .errMismatchedAlter ∧
    setupStrict false m env = .proceed (.fresh m) ∧
    setup m env = .fresh m := by
  have hres : resumeFromCheckpoint m env = (m, some .mismatchedAlter) := by
    simp [resumeFromCheckpoint, hread, hcp, bne_iff_ne, hneq]
  refine ⟨hres, ?_, ?_, ?_⟩ <;> simp [setupStrict, setup, hres]

/-- Witness for C3: checkpointed `ADD COLUMN c INT` against a current
`ADD COLUMN d INT`. -/
theorem C3_resume_mismatched_alter_witness :
    setupStrict true ⟨"ADD COLUMN d INT", true⟩
        ⟨true, some ⟨1, "w", "binlog.000001", 4, 0, 0, "ADD COLUMN c INT"⟩, true, true, true⟩ =
      .errMismatchedAlter := by
  exact (C3_resume_mismatched_alter ⟨"ADD COLUMN d INT", true⟩
    ⟨true, some ⟨1, "w", "binlog.000001", 4, 0, 0, "ADD COLUMN c INT"⟩, true, true, true⟩
    ⟨1, "w", "binlog.000001", 4, 0, 0, "ADD COLUMN c INT"⟩ rfl rfl (by decide)).2.1

/-! ## C4 — checksum forced on after resume -/

/-- C4: every successful resume-from-checkpoint forces the migration's
`Checksum` flag on, so `prepareForCutover` always runs the checksum after
a resume regardless of the user's `--checksum` setting; on a fresh run the
checksum runs exactly when the `Checksum` flag is set, whose default is
on. -/
theorem C4_checksum_forced_on_resume :
    (∀ (m : Migration) (env : ResumeEnv) (m' : Migration),
        resumeFromCheckpoint m env = (m', none) →
          m'.checksum = true ∧ prepareForCutoverRunsChecksum m' = true) ∧
    (∀ m : Migration, prepareForCutoverRunsChecksum m = m.checksum) ∧
    defaultMigrationChecksum = true := by
  refine ⟨?_, fun _ => rfl, rfl⟩
  intro m env m' h
  unfold resumeFromCheckpoint at h
  split at h
  · simp_all
  · split at h
    · simp_all
    · split at h
      · simp_all
      · split at h
        · simp_all
        · split at h
          · simp_all
          · split at h
            · simp_all
            · refine ⟨?_, ?_⟩ <;>
                simp only [Prod.mk.injEq] at h <;>
                simp [← h.1, prepareForCutoverRunsChecksum]

/-- Witness for C4: a migration started with `--checksum=false` that
successfully resumes ends up with the checksum forced on. -/
theorem C4_checksum_forced_on_resume_witness :
    (Migration.mk "ADD COLUMN c INT" true).checksum = true ∧
      prepareForCutoverRunsChecksum (Migration.mk "ADD COLUMN c INT" true) = true := by
  exact C4_checksum_forced_on_resume.1 (Migration.mk "ADD COLUMN c INT" false)
    ⟨true, some ⟨1, "w", "binlog.000001", 4, 0, 0, "ADD COLUMN c INT"⟩, true, true, true⟩
    (Migration.mk "ADD COLUMN c INT" true) rfl

/-! ## C5 — checkpoint record fields and newest-row readback -/

/-- C5 counterexample: the checkpoint table has no checksum-watermark
field — neither the `CREATE TABLE` of `createCheckpointTable` nor the
`INSERT` of `dumpCheckpoint` mentions one (the row instead carries the
two rows-copied counters). -/
theorem C5_counterexample :
    "checksum_watermark" ∉ checkpointTableColumns ∧
      "checksum_watermark" ∉ dumpCheckpointColumns := by
  exact ⟨by decide, by decide⟩

/-- The reader `readLatestCheckpoint` returns an element of the table carrying the
maximal `id`. -/
theorem readLatestCheckpoint_max (rows : List CheckpointRow) (r : CheckpointRow)
    (h : readLatestCheckpoint rows = some r) :
    r ∈ rows ∧ ∀ r' ∈ rows, r'.id ≤ r.id := by
  induction rows generalizing r with
  | nil => simp [readLatestCheckpoint] at h
  | cons a rest ih =>
    rw [readLatestCheckpoint] at h
    rcases hrest : readLatestCheckpoint rest with _ | best
    · rw [hrest] at h
      have hnil : rest = [] := by
        cases rest with
        | nil => rfl
        | cons b tl =>
          rw [readLatestCheckpoint] at hrest
          rcases htl : readLatestCheckpoint tl with _ | x <;> simp [htl] at hrest
      subst hnil
      simp only [Option.some.injEq] at h
      subst h
      simp
    · rw [hrest] at h
      simp only [Option.some.injEq] at h
      rcases ih best hrest with ⟨hmem, hmax⟩
      by_cases hcmp : best.id ≥ a.id
      · rw [if_pos hcmp] at h
        subst h
        exact ⟨List.mem_cons_of_mem _ hmem, by
          intro r' hr'
          rcases List.mem_cons.mp hr' with h1 | h2
          · exact h1 ▸ hcmp
          · exact hmax r' h2⟩
      · rw [if_neg hcmp] at h
        subst h
        push_neg at hcmp
        exact ⟨List.mem_cons_self _ _, by
          intro r' hr'
          rcases List.mem_cons.mp hr' with h1 | h2
          · exact h1 ▸ le_refl _
          · exact le_trans (hmax r' h2) (le_of_lt hcmp)⟩

/-- Appending a checkpoint row with a fresh (strictly larger) id makes it
the row that `readLatestCheckpoint` returns. -/
theorem readLatestCheckpoint_append (rows : List CheckpointRow) (x : CheckpointRow)
    (h : ∀ r ∈ rows, r.id < x.id) :
    readLatestCheckpoint (rows ++ [x]) = some x := by
  induction rows with
  | nil => simp [readLatestCheckpoint]
  | cons a rest ih =>
    have ha : a.id < x.id := h a (List.mem_cons_self _ _)
    have hrest := ih (fun r hr => h r (List.mem_cons_of_mem _ hr))
    rw [List.cons_append, readLatestCheckpoint, hrest]
    simp [Nat.le_of_lt ha]

/-- C5 (amended): every checkpoint row persisted by `dumpCheckpoint`
carries `{id, copier low watermark, binlog file, binlog position, rows
copied, rows copied (logical), verbatim DDL}` — there is no checksum
watermark — and on resume the newest row, the one with the largest `id`,
is the one read back: after dumping a checkpoint with a fresh
auto-increment id, the resume query returns exactly that row. -/
theorem C5_checkpoint_roundtrip (rows : List CheckpointRow) (nextId : Nat)
    (lw : String) (binlog : Position) (rc rcl : Nat) (alter : String)
    (hfresh : ∀ r ∈ rows, r.id < nextId) :
    readLatestCheckpoint (dumpCheckpoint rows nextId lw binlog rc rcl alter) =
      some ⟨nextId, lw, binlog.name, binlog.pos, rc, rcl, alter⟩ ∧
    (∀ (rows' : List CheckpointRow) (r : CheckpointRow),
        readLatestCheckpoint rows' = some r → r ∈ rows' ∧ ∀ r' ∈ rows', r'.id ≤ r.id) := by
  refine ⟨?_, readLatestCheckpoint_max⟩
  exact readLatestCheckpoint_append rows _ hfresh

/-- Witness for C5 at a concrete two-row checkpoint table. -/
theorem C5_checkpoint_roundtrip_witness :
    readLatestCheckpoint
        (dumpCheckpoint [⟨1, "w0", "binlog.000001", 4, 10, 10, "ADD COLUMN c INT"⟩]
          2 "w1" ⟨"binlog.000002", 120⟩ 500 500 "ADD COLUMN c INT") =
      some ⟨2, "w1", "binlog.000002", 120, 500, 500, "ADD COLUMN c INT"⟩ := by
  exact (C5_checkpoint_roundtrip [⟨1, "w0", "binlog.000001", 4, 10, 10, "ADD COLUMN c INT"⟩]
    2 "w1" ⟨"binlog.000002", 120⟩ 500 500 "ADD COLUMN c INT" (by decide)).1

/-! ## C7 — key-above-watermark optimization -/

/-- C7: for every binlog row event, the key-above-high-watermark callback
is consulted (for upsert events in particular, `deleted = false`); when it
fires the event is dropped — the subscription, and with it both delta
stores, is left unchanged — and when the optimization is off the event is
buffered; any state transition past `copyRows` disables the optimization
on every subscription of the replication client. -/
theorem C7_key_above_watermark_drop :
    (∀ (s : Subscription) (f : Str → Bool) (key : List Str) (deleted : Bool),
        s.enableKeyAboveWatermark = true →
        s.keyAboveCopierCallback = some f →
        f (key.headD []) = true →
        s.keyHasChanged key deleted = s) ∧
    (∀ (s : Subscription) (key : List Str) (deleted : Bool),
        s.enableKeyAboveWatermark = false →
        (s.keyHasChanged key deleted).deltaQueue =
          (if s.disableDeltaMap then s.deltaQueue ++ [⟨HashKey key, deleted⟩]
           else s.deltaQueue) ∧
        (s.keyHasChanged key deleted).deltaMap =
          (if s.disableDeltaMap then s.deltaMap
           else assocSet s.deltaMap (HashKey key) deleted)) ∧
    (∀ (r : RunnerLite) (st : MigrationState) (c : Client),
        st.toInt > MigrationState.copyRows.toInt →
        (setCurrentState r st).replClient = some c →
        ∀ s ∈ c.subscriptions, s.enableKeyAboveWatermark = false) := by
  refine ⟨?_, ?_, ?_⟩
  · intro s f key deleted hen hcb hf
    have hf' : f (key.head?.getD []) = true := by simpa using hf
    simp [Subscription.keyHasChanged, Subscription.keyAboveWatermarkEnabled, hen, hcb, hf']
  · intro s key deleted hen
    simp only [Subscription.keyHasChanged, Subscription.keyAboveWatermarkEnabled, hen,
      Bool.false_and, Bool.false_eq_true, if_false]
    by_cases hd : s.disableDeltaMap <;> simp [hd]
  · intro r st c hst hc s hs
    simp only [setCurrentState, hst, if_pos] at hc
    rcases hr : r.replClient with _ | c0
    · simp [hr] at hc
    · simp only [hr, Option.map_some', Option.some.injEq] at hc
      subst hc
      simp only [Client.setKeyAboveWatermarkOptimization, List.mem_map] at hs
      rcases hs with ⟨s0, _, rfl⟩
      rfl

/-- Witness for C7: a subscription with the optimization enabled and a
callback that reports the key above the high watermark drops an upsert
event. -/
theorem C7_key_above_watermark_drop_witness :
    (Subscription.mk false [] [] true (some fun _ => true)).keyHasChanged [['9']] false =
      Subscription.mk false [] [] true (some fun _ => true) := by
  exact C7_key_above_watermark_drop.1 (Subscription.mk false [] [] true (some fun _ => true))
    (fun _ => true) [['9']] false rfl rfl rfl

/-! ## C8 — queue-mode merge into runs -/

/-- Re-reading the statements built by the queue-merge loop as change
intents reconstitutes exactly the buffered run (kind `p`, keys `buf`)
followed by the unprocessed remainder of the queue: no intent is lost,
duplicated or reordered, and each statement carries a single kind. -/
theorem flushDeltaQueueStmtsAux_flatten (target : Nat) (rest : List QueuedChange)
    (p : Bool) (buf : List Str) :
    (flushDeltaQueueStmtsAux target rest p buf).flatMap
        (fun st => st.keys.map fun k => QueuedChange.mk k st.isDelete) =
      buf.map (fun k => QueuedChange.mk k p) ++ rest := by
  induction rest generalizing p buf with
  | nil => simp [flushDeltaQueueStmtsAux]
  | cons c cs ih =>
    rw [flushDeltaQueueStmtsAux]
    split
    · rw [List.flatMap_cons, ih]
      simp
    · rename_i hcond
      rw [ih]
      have hpe : c.isDelete = p := by
        by_contra hne
        simp [bne_iff_ne, hne] at hcond
      subst hpe
      simp

/-- Every statement the queue-merge loop emits from a non-empty buffer has
a non-empty key list. -/
theorem flushDeltaQueueStmtsAux_keys_ne_nil (target : Nat) (rest : List QueuedChange)
    (p : Bool) (buf : List Str) (hbuf : buf ≠ []) :
    ∀ st ∈ flushDeltaQueueStmtsAux target rest p buf, st.keys ≠ [] := by
  induction rest generalizing p buf with
  | nil => simpa [flushDeltaQueueStmtsAux] using hbuf
  | cons c cs ih =>
    rw [flushDeltaQueueStmtsAux]
    split
    · intro st hst
      rcases List.mem_cons.mp hst with h | h
      · subst h
        exact hbuf
      · exact ih c.isDelete [c.key] (by simp) st h
    · exact ih c.isDelete (buf ++ [c.key]) (by simp)

/-- Every statement the queue-merge loop emits holds at most
`target + 1` keys. -/
theorem flushDeltaQueueStmtsAux_keys_le (target : Nat) (rest : List QueuedChange)
    (p : Bool) (buf : List Str) (hbuf : buf.length ≤ target + 1) :
    ∀ st ∈ flushDeltaQueueStmtsAux target rest p buf, st.keys.length ≤ target + 1 := by
  induction rest generalizing p buf with
  | nil =>
    intro st hst
    simp only [flushDeltaQueueStmtsAux, List.mem_singleton] at hst
    subst hst
    exact hbuf
  | cons c cs ih =>
    rw [flushDeltaQueueStmtsAux]
    split
    · intro st hst
      rcases List.mem_cons.mp hst with h | h
      · subst h
        exact hbuf
      · exact ih c.isDelete [c.key]
          (by simp only [List.length_cons, List.length_nil]; omega) st h
    · rename_i hcond
      have hle : buf.length ≤ target := by
        by_contra hgt
        simp [Nat.lt_of_not_le hgt] at hcond
      exact ih c.isDelete (buf ++ [c.key])
        (by simp only [List.length_append, List.length_cons, List.length_nil]; omega)

/-- The first statement the queue-merge loop emits carries the kind of the
current buffer. -/
theorem flushDeltaQueueStmtsAux_head (target : Nat) (rest : List QueuedChange)
    (p : Bool) (buf : List Str) :
    ∃ ks tl, flushDeltaQueueStmtsAux target rest p buf = ⟨p, ks⟩ :: tl := by
  induction rest generalizing p buf with
  | nil => exact ⟨buf, [], rfl⟩
  | cons c cs ih =>
    rw [flushDeltaQueueStmtsAux]
    split
    · exact ⟨buf, _, rfl⟩
    · rename_i hcond
      have hpe : c.isDelete = p := by
        by_contra hne
        simp [bne_iff_ne, hne] at hcond
      subst hpe
      exact ih c.isDelete (buf ++ [c.key])

/-- Adjacent statements emitted by the queue-merge loop either change
kind, or the earlier one was split because its buffer reached the size
bound `target + 1`. -/
theorem flushDeltaQueueStmtsAux_chain (target : Nat) (rest : List QueuedChange)
    (p : Bool) (buf : List Str) (hbuf : buf.length ≤ target + 1) :
    List.Chain' (fun a b : FlushStmt =>
        a.isDelete ≠ b.isDelete ∨ a.keys.length = target + 1)
      (flushDeltaQueueStmtsAux target rest p buf) := by
  induction rest generalizing p buf with
  | nil => simp [flushDeltaQueueStmtsAux]
  | cons c cs ih =>
    rw [flushDeltaQueueStmtsAux]
    split
    · rename_i hcond
      rw [List.chain'_cons']
      refine ⟨?_, ih c.isDelete [c.key]
        (by simp only [List.length_cons, List.length_nil]; omega)⟩
      intro y hy
      rcases flushDeltaQueueStmtsAux_head target cs c.isDelete [c.key] with ⟨ks, tl, heq⟩
      rw [heq] at hy
      simp only [List.head?_cons, Option.mem_def, Option.some.injEq] at hy
      subst hy
      by_cases hpe : p = c.isDelete
      · subst hpe
        right
        have hgt : buf.length > target := by simpa [bne_self_eq_false] using hcond
        show buf.length = target + 1
        omega
      · exact Or.inl (by simpa using hpe)
    · rename_i hcond
      have hle : buf.length ≤ target := by
        by_contra hgt
        simp [Nat.lt_of_not_le hgt] at hcond
      exact ih c.isDelete (buf ++ [c.key])
        (by simp only [List.length_append, List.length_cons, List.length_nil]; omega)

/-- Unfolding the first loop iteration: `prevKey` starts as the first
queued change, so the first iteration never splits and seeds the buffer
with the first key. -/
theorem flushDeltaQueueStmts_cons (target : Nat) (c0 : QueuedChange)
    (cs : List QueuedChange) :
    flushDeltaQueueStmts target (c0 :: cs) =
      flushDeltaQueueStmtsAux target cs c0.isDelete [c0.key] := by
  rw [flushDeltaQueueStmts, flushDeltaQueueStmtsAux]
  simp

/-- C8: queue-mode change intents are appended to the delta queue in
binlog order, and at flush time adjacent same-kind intents are merged
into runs — one multi-key statement per run, each of a single kind
(DELETE or REPLACE), with a run also split once its buffer exceeds the
target batch size — such that replaying the statements in order
reconstitutes the queue exactly.  The statement list is handed as one
ordered batch to a single sequential executor (`RetryableTransaction`, or
`ExecUnderLock` for the final flush), never to the parallel map-mode
error group. -/
theorem C8_queue_flush_merge (target : Nat) (q : List QueuedChange) (hq : q ≠ [])
    (s : Subscription) (key : List Str) (deleted : Bool)
    (hqmode : s.disableDeltaMap = true) (hwm : s.enableKeyAboveWatermark = false) :
    ((flushDeltaQueueStmts target q).flatMap
        (fun st => st.keys.map fun k => QueuedChange.mk k st.isDelete) = q) ∧
    (∀ st ∈ flushDeltaQueueStmts target q, st.keys ≠ []) ∧
    (∀ st ∈ flushDeltaQueueStmts target q, st.keys.length ≤ target + 1) ∧
    List.Chain' (fun a b : FlushStmt =>
        a.isDelete ≠ b.isDelete ∨ a.keys.length = target + 1)
      (flushDeltaQueueStmts target q) ∧
    (s.keyHasChanged key deleted).deltaQueue =
      s.deltaQueue ++ [⟨HashKey key, deleted⟩] := by
  obtain ⟨c0, cs, rfl⟩ := List.exists_cons_of_ne_nil hq
  rw [flushDeltaQueueStmts_cons]
  refine ⟨?_, ?_, ?_, ?_, ?_⟩
  · rw [flushDeltaQueueStmtsAux_flatten]
    simp
  · exact flushDeltaQueueStmtsAux_keys_ne_nil target cs c0.isDelete [c0.key] (by simp)
  · exact flushDeltaQueueStmtsAux_keys_le target cs c0.isDelete [c0.key]
      (by simp only [List.length_cons, List.length_nil]; omega)
  · exact flushDeltaQueueStmtsAux_chain target cs c0.isDelete [c0.key]
      (by simp only [List.length_cons, List.length_nil]; omega)
  · simp [Subscription.keyHasChanged, Subscription.keyAboveWatermarkEnabled, hwm, hqmode]

/-- Witness for C8 on the queue REPLACE k1, REPLACE k2, DELETE k3,
REPLACE k4 (the example of the source comment, `subscription.go` lines
111-113), which merges to REPLACE⟨k1,k2⟩, DELETE⟨k3⟩, REPLACE⟨k4⟩. -/
theorem C8_queue_flush_merge_witness :
    (flushDeltaQueueStmts 1000
        [⟨['k', '1'], false⟩, ⟨['k', '2'], false⟩, ⟨['k', '3'], true⟩,
         ⟨['k', '4'], false⟩]).flatMap
        (fun st => st.keys.map fun k => QueuedChange.mk k st.isDelete) =
      [⟨['k', '1'], false⟩, ⟨['k', '2'], false⟩, ⟨['k', '3'], true⟩,
       ⟨['k', '4'], false⟩] := by
  exact (C8_queue_flush_merge 1000 _ (by simp)
    (Subscription.mk true [] [] false none) [['k']] false rfl rfl).1

/-! ## C9 — `HashKey` / `UnhashKey` round trip -/

/-- A list whose second element is not `#` does not begin with the
separator `-#-`. -/
theorem startsWithSep_eq_false_of_ne (c d : Char) (t : Str) (hd : d ≠ '#') :
    startsWithSep (c :: d :: t) = false := by
  cases t <;> simp [startsWithSep, hd]

/-- A string that contains no `#` is a single split part. -/
theorem splitSepCore_no_hash (part : Str) (h : '#' ∉ part) :
    splitSepCore part = (part, []) := by
  induction part with
  | nil => simp [splitSepCore]
  | cons c rest ih =>
    rw [splitSepCore]
    have hsw : startsWithSep (c :: rest) = false := by
      cases rest with
      | nil => simp [startsWithSep]
      | cons d t =>
        exact startsWithSep_eq_false_of_ne c d t
          (fun hdd => h (by simp [hdd]))
    simp only [hsw, Bool.false_eq_true, if_false]
    rw [ih (fun hh => h (List.mem_cons_of_mem _ hh))]

/-- Splitting `part ++ "-#-" ++ t` with `#`-free `part` closes `part` as
the first split part and continues at `t`: the leftmost separator
occurrence is exactly the inserted one, since any occurrence carries a
`#` in its middle position. -/
theorem splitSepCore_append_sep (part t : Str) (h : '#' ∉ part) :
    splitSepCore (part ++ '-' :: '#' :: '-' :: t) =
      (part, (splitSepCore t).1 :: (splitSepCore t).2) := by
  induction part with
  | nil =>
    rw [List.nil_append, splitSepCore]
    simp [startsWithSep]
  | cons c p' ih =>
    rw [List.cons_append, splitSepCore]
    have hsw : startsWithSep (c :: (p' ++ '-' :: '#' :: '-' :: t)) = false := by
      cases p' with
      | nil => exact startsWithSep_eq_false_of_ne c '-' _ (by decide)
      | cons d t' =>
        exact startsWithSep_eq_false_of_ne c d _
          (fun hdd => h (by simp [hdd]))
    simp only [hsw, Bool.false_eq_true, if_false]
    rw [ih (fun hh => h (List.mem_cons_of_mem _ hh))]

/-- When no key value contains `#`, splitting undoes joining: `strings.
Split(strings.Join(vs, "-#-"), "-#-") = vs`. -/
theorem splitSep_hashKey (vs : List Str) (hne : vs ≠ [])
    (h : ∀ v ∈ vs, '#' ∉ v) : splitSep (HashKey vs) = vs := by
  induction vs with
  | nil => exact absurd rfl hne
  | cons v rest ih =>
    cases rest with
    | nil =>
      have hv : HashKey [v] = v := by simp [HashKey]
      rw [hv, splitSep, splitSepCore_no_hash v (h v (List.mem_cons_self _ _))]
    | cons w ws =>
      have hh : HashKey (v :: w :: ws) = v ++ '-' :: '#' :: '-' :: HashKey (w :: ws) := rfl
      have hstep := splitSepCore_append_sep v (HashKey (w :: ws))
        (h v (List.mem_cons_self _ _))
      have hrec := ih (by simp) (fun u hu => h u (List.mem_cons_of_mem _ hu))
      rw [splitSep] at hrec
      rw [splitSep, hh, hstep]
      rw [hrec]

/-- Reading an ordinary (non-backslash) character. -/
theorem sqlUnescape_cons_ne (c : Char) (t : Str) (hc : c ≠ '\\') :
    sqlUnescape (c :: t) = c :: sqlUnescape t := by
  rw [sqlUnescape.eq_def]
  simp [hc]

/-- Reading a backslash escape sequence. -/
theorem sqlUnescape_cons_esc (e : Char) (t : Str) :
    sqlUnescape ('\\' :: e :: t) = escCharInv e :: sqlUnescape t := by
  rw [sqlUnescape.eq_def]
  simp

/-- De-escaping inverts escaping: the quoted literal produced from an
escaped value denotes the original value. -/
theorem sqlUnescape_sqlEscape (s : Str) : sqlUnescape (sqlEscape s) = s := by
  induction s with
  | nil => rfl
  | cons c rest ih =>
    rcases he : escChar c with _ | e
    · have hesc : sqlEscape (c :: rest) = c :: sqlEscape rest := by
        simp only [sqlEscape, he]
      have hc : c ≠ '\\' := by
        intro hcc
        subst hcc
        simp [escChar, sqlQuote, sqlDQuote] at he
      rw [hesc, sqlUnescape_cons_ne c _ hc, ih]
    · have hesc : sqlEscape (c :: rest) = '\\' :: e :: sqlEscape rest := by
        simp only [sqlEscape, he]
      have hinv : escCharInv e = c := by
        unfold escChar at he
        split_ifs at he with h1 h2 h3 h4 h5 h6 h7 <;>
          first
          | exact Option.noConfusion he
          | (injection he with he'
             subst he'
             subst c
             decide)
      rw [hesc, sqlUnescape_cons_esc, ih, hinv]

/-- C9 counterexample: for the single-column key whose value is `a-#-b`
(a value containing the separator), `UnhashKey (HashKey pk)` is the
two-column literal `('a','b')` instead of the claimed single-column
literal `'a-#-b'`: the round trip changes which key values are denoted. -/
theorem C9_counterexample :
    UnhashKey (HashKey [['a', '-', '#', '-', 'b']]) ≠
        quoteEscaped ['a', '-', '#', '-', 'b'] ∧
      UnhashKey (HashKey [['a', '-', '#', '-', 'b']]) =
        ['(', sqlQuote, 'a', sqlQuote, ',', sqlQuote, 'b', sqlQuote, ')'] := by
  have hsplit : splitSep ['a', '-', '#', '-', 'b'] = [['a'], ['b']] := by
    simp [splitSep, splitSepCore, startsWithSep]
  have heval : UnhashKey (HashKey [['a', '-', '#', '-', 'b']]) =
      ['(', sqlQuote, 'a', sqlQuote, ',', sqlQuote, 'b', sqlQuote, ')'] := by
    have hh : HashKey [['a', '-', '#', '-', 'b']] = ['a', '-', '#', '-', 'b'] := by
      simp [HashKey]
    rw [hh, UnhashKey, hsplit]
    rfl
  refine ⟨?_, heval⟩
  rw [heval]
  decide

/-- C9 (amended): for every non-empty primary key none of whose rendered
values contains the character `#` (so the separator `-#-` can neither
occur in nor straddle a value), `UnhashKey (HashKey pk)` yields exactly
the claimed quoted literal — `'v'` for a single-column key,
`('v1',…,'vN')` for a composite key — and each quoted component
de-escapes to the original value, so the literal denotes the same key
values in a `(col1,…,colN) IN (…)` clause.  Key values containing the
separator break the round trip (see the counterexample). -/
theorem C9_hash_unhash_roundtrip (vs : List Str) (hne : vs ≠ [])
    (h : ∀ v ∈ vs, '#' ∉ v) :
    UnhashKey (HashKey vs) = renderKeyLiteralSpec vs ∧
      ∀ v ∈ vs, sqlUnescape (sqlEscape v) = v := by
  refine ⟨?_, fun v _ => sqlUnescape_sqlEscape v⟩
  rw [UnhashKey, splitSep_hashKey vs hne h]
  cases vs with
  | nil => exact absurd rfl hne
  | cons v rest =>
    cases rest with
    | nil => rfl
    | cons w ws => rfl

/-- Witness for C9 at the key of `TestHashAndUnhashKey`
(`utils_test.go` lines 34-49): `{"1234", "ACDC", "12"}`. -/
theorem C9_hash_unhash_roundtrip_witness :
    UnhashKey (HashKey [['1', '2', '3', '4'], ['A', 'C', 'D', 'C'], ['1', '2']]) =
        renderKeyLiteralSpec [['1', '2', '3', '4'], ['A', 'C', 'D', 'C'], ['1', '2']] ∧
      ∀ v ∈ [['1', '2', '3', '4'], ['A', 'C', 'D', 'C'], ['1', '2']],
        sqlUnescape (sqlEscape v) = v := by
  exact C9_hash_unhash_roundtrip _ (by decide) (by decide)

end Spirit
